import Mathlib

/-!
# Golang_CRUD: the user service of `main.go`

A shallow embedding of the five handlers of `main.go`, of `corsMiddleware`
and of the router wiring of `main`, together with the library behaviour the
handlers rely on:

* `strconv.Atoi` on a platform whose `int` has 64 bits (`Atoi`);
* `json.Decoder.Decode` into a `User` (`decodeUser`), on the first JSON value
  of the request body, already tokenised (`Json`);
* `http.Error`, `ResponseWriter.WriteHeader` and the implicit status 200 of
  the first write (`Error`, `WriteHeader`, `Encode`);
* the `users` table behind `database/sql` (`Db`), with the seven statement
  shapes the handlers issue, every driver call able to fail (`Faults`);
* route matching of `gorilla/mux` for the five routes registered in `main`
  (`serve`).
-/

namespace GoCrud

/-! ## strconv.Atoi -/

/-- Width of Go's `int` on the platform the service runs on. -/
def intSize : Nat := 64

/-- Largest value of Go's `int`. -/
def maxInt : Int := 2 ^ (intSize - 1) - 1

/-- Smallest value of Go's `int`. -/
def minInt : Int := -(2 ^ (intSize - 1))

/-- Value of a decimal digit byte, `none` for every other character. -/
def digitVal (c : Char) : Option Nat :=
  if c.isDigit then some (c.toNat - 48) else none

/-- The digit loop of `strconv.ParseUint` in base 10: `n = n*10 + d` over the
characters, a syntax error (`none`) at the first character that is no digit.
The accumulator is unbounded here; the range is checked by the caller. -/
def parseDigits : List Char → Nat → Option Nat
  | [], acc => some acc
  | c :: cs, acc =>
    match digitVal c with
    | none => none
    | some d => parseDigits cs (acc * 10 + d)

/-- Characters of `s` after an optional leading sign, and whether the sign is `-`. -/
def splitSign (cs : List Char) : Bool × List Char :=
  match cs with
  | [] => (false, [])
  | c :: rest =>
    if c = '-' then (true, rest)
    else if c = '+' then (false, rest)
    else (false, c :: rest)

/-- Model of `strconv.Atoi(s)`: `some n` when it returns `(n, nil)`, `none` when it
returns an error (a syntax error for an empty string, a lone sign or a character
that is no digit; a range error for a value outside `int`). -/
def Atoi (s : String) : Option Int :=
  match splitSign s.toList with
  | (_, []) => none
  | (neg, ds) =>
    match parseDigits ds 0 with
    | none => none
    | some n =>
      let v : Int := if neg then -(n : Int) else (n : Int)
      if minInt ≤ v ∧ v ≤ maxInt then some v else none

/-- The byte `'0' + d` of a decimal digit `d`. -/
def digitChar (d : Nat) : Char := Char.ofNat (48 + d)

/-- The loop of Go's `formatBits` in base 10: `for u >= 10 { ... }`, writing the
digits of `u` from the right, in front of `acc`; `fuel` bounds the rounds. -/
def formatBits : Nat → Nat → List Char → List Char
  | 0, _, acc => acc
  | fuel + 1, u, acc =>
    if 10 ≤ u then formatBits fuel (u / 10) (digitChar (u % 10) :: acc)
    else digitChar u :: acc

/-- Model of `strconv.Itoa(i)`: the decimal text of `i`, the way a client writes
an id it received into the path. -/
def Itoa (i : Int) : String :=
  let ds := formatBits (i.natAbs + 1) i.natAbs []
  String.mk (if i < 0 then '-' :: ds else ds)

/-! ### What the specification calls an integer

These definitions follow the wording "must parse as an integer", not the code:
a text is an integer when it is an optional sign followed by one or more decimal
digits, and its value is the number those digits denote. -/

/-- The number a run of decimal digits denotes. -/
def digitsValue (cs : List Char) : Nat :=
  Nat.ofDigits 10 (cs.reverse.map fun c => c.toNat - 48)

/-- Whether the text is an integer: an optional sign, then one or more digits. -/
def isIntegerText (s : String) : Bool :=
  match s.toList with
  | [] => false
  | c :: cs =>
    if c = '-' ∨ c = '+' then !cs.isEmpty && cs.all Char.isDigit
    else (c :: cs).all Char.isDigit

/-- The integer the text denotes (`0` for a text that is no integer). -/
def integerValue (s : String) : Int :=
  match s.toList with
  | [] => 0
  | c :: cs =>
    if c = '-' then -(digitsValue cs : Int)
    else if c = '+' then (digitsValue cs : Int)
    else (digitsValue (c :: cs) : Int)

/-! ## The data model -/

/-- An instant, as the database reports it (`parseTime=true`); `0` is Go's zero time. -/
structure Time where
  ticks : Int
  deriving DecidableEq, Repr

instance : Inhabited Time := ⟨⟨0⟩⟩

/-- The `User` struct of `main.go`. -/
structure User where
  ID : Int
  Name : String
  Email : String
  CreatedAt : Time
  deriving DecidableEq, Repr

/-- The zero value `var user User`. -/
def User.zero : User := ⟨0, "", "", ⟨0⟩⟩

/-! ## encoding/json: decoding a request body into a `User` -/

/-- A JSON value as the decoder's scanner delivers it. A number literal without
fraction and exponent carries its integer value, any other number its text. -/
inductive Json where
  | null
  | bool (b : Bool)
  | int (i : Int)
  | real (lit : String)
  | str (s : String)
  | arr (xs : List Json)
  | obj (kvs : List (String × Json))

/-- Which field of `User` a JSON object key addresses. -/
inductive Field where
  | id | name | email | createdAt
  deriving DecidableEq, Repr

/-- Key lookup of `encoding/json`: the tag names `id`, `name`, `email`,
`created_at`, matched exactly or, failing that, case-insensitively. -/
def fieldOf (key : String) : Option Field :=
  let k := key.toList.map Char.toLower
  if k = "id".toList then some Field.id
  else if k = "name".toList then some Field.name
  else if k = "email".toList then some Field.email
  else if k = "created_at".toList then some Field.createdAt
  else none

/-- What decoding one member value into a field does. -/
inductive Store1 where
  /-- the field was set (or left alone by a JSON `null`) -/
  | ok (u : User)
  /-- an `UnmarshalTypeError`: it is remembered and decoding goes on -/
  | typeErr
  /-- an error of `Time.UnmarshalJSON`: decoding stops -/
  | fatal

/-- Decoding of one member value `v` into field `f` of `u`. `parseTime` is
`time.Parse(time.RFC3339, ·)`, as used by `Time.UnmarshalJSON`. -/
def storeField (parseTime : String → Option Time) (u : User) (f : Field) (v : Json) : Store1 :=
  match f, v with
  | _, Json.null => Store1.ok u
  | Field.id, Json.int i =>
    if minInt ≤ i ∧ i ≤ maxInt then Store1.ok { u with ID := i } else Store1.typeErr
  | Field.id, _ => Store1.typeErr
  | Field.name, Json.str s => Store1.ok { u with Name := s }
  | Field.name, _ => Store1.typeErr
  | Field.email, Json.str s => Store1.ok { u with Email := s }
  | Field.email, _ => Store1.typeErr
  | Field.createdAt, Json.str s =>
    match parseTime s with
    | some t => Store1.ok { u with CreatedAt := t }
    | none => Store1.fatal
  | Field.createdAt, _ => Store1.fatal

/-- The member loop of the decoder over a JSON object: members in order, a later
member overriding an earlier one, unknown keys skipped. The Boolean records a
saved `UnmarshalTypeError`; `none` is an error that stopped the decoder. -/
def decodeMembers (parseTime : String → Option Time) :
    List (String × Json) → User → Bool → Option (User × Bool)
  | [], u, saved => some (u, saved)
  | (k, v) :: rest, u, saved =>
    match fieldOf k with
    | none => decodeMembers parseTime rest u saved
    | some f =>
      match storeField parseTime u f v with
      | Store1.ok u1 => decodeMembers parseTime rest u1 saved
      | Store1.typeErr => decodeMembers parseTime rest u true
      | Store1.fatal => none

/-- Model of `err := json.NewDecoder(r.Body).Decode(&user)` on `var user User`.
The body is the first JSON value of the stream, `none` when the stream does not
start with one (empty body, syntax error). The result is `some user` when
`err == nil` and `none` otherwise. -/
def decodeUser (parseTime : String → Option Time) (body : Option Json) : Option User :=
  match body with
  | none => none
  | some Json.null => some User.zero
  | some (Json.obj kvs) =>
    match decodeMembers parseTime kvs User.zero false with
    | some (u, false) => some u
    | _ => none
  | some _ => none

/-! ## net/http: the response writer -/

/-- What a handler wrote as the response body. -/
inductive Body where
  /-- nothing was written -/
  | empty
  /-- the line `http.Error` prints: the message, then a newline -/
  | text (msg : String)
  /-- the JSON object `Encode(user)` prints, then a newline -/
  | user (u : User)
  /-- the JSON value `Encode(users)` prints: `null` for a nil slice (`none`),
  an array otherwise -/
  | users (us : Option (List User))
  deriving DecidableEq, Repr

/-- The state of an `http.ResponseWriter`: the header map, the status code once
it has been written, and the body. -/
structure ResponseWriter where
  header : List (String × String)
  status : Option Nat
  body : Body
  deriving DecidableEq, Repr

/-- A fresh response writer, as the server hands it to the outermost handler. -/
def ResponseWriter.new : ResponseWriter := ⟨[], none, Body.empty⟩

/-- The status code the client receives: 200 unless one was written. -/
def ResponseWriter.code (w : ResponseWriter) : Nat := w.status.getD 200

/-- The call `w.Header().Set(k, v)`: replaces any value of `k`. -/
def ResponseWriter.Set (w : ResponseWriter) (k v : String) : ResponseWriter :=
  { w with header := w.header.filter (fun p => p.1 ≠ k) ++ [(k, v)] }

/-- The call `w.Header().Get(k)`. -/
def ResponseWriter.Get (w : ResponseWriter) (k : String) : Option String :=
  (w.header.find? (fun p => p.1 = k)).map Prod.snd

/-- The call `w.WriteHeader(code)`; a second call is ignored by the server. -/
def ResponseWriter.WriteHeader (w : ResponseWriter) (code : Nat) : ResponseWriter :=
  match w.status with
  | some _ => w
  | none => { w with status := some code }

/-- A write of the body: the status becomes 200 if none was written before. -/
def ResponseWriter.Write (w : ResponseWriter) (b : Body) : ResponseWriter :=
  { w.WriteHeader 200 with body := b }

/-- The call `http.Error(w, msg, code)`. -/
def Error (w : ResponseWriter) (msg : String) (code : Nat) : ResponseWriter :=
  let w := w.Set "Content-Type" "text/plain; charset=utf-8"
  let w := w.Set "X-Content-Type-Options" "nosniff"
  let w := w.WriteHeader code
  w.Write (Body.text msg)

/-- The call `json.NewEncoder(w).Encode(v)`. -/
def Encode (w : ResponseWriter) (v : Body) : ResponseWriter := w.Write v

/-! ## database/sql: the `users` table

The schema of the table is not part of the repository; the store below follows
the persistence boundary the specification describes:
`users(id PRIMARY KEY AUTOINCREMENT, name TEXT NOT NULL, email TEXT NOT NULL,
created_at TIMESTAMP DEFAULT NOW)`, texts stored as given, ids compared exactly. -/

/-- Modelled from the spec: a row of the table `users(id, name, email, created_at)`,
whose declaration is not in the source. -/
structure Row where
  id : Int
  name : String
  email : String
  created_at : Time
  deriving DecidableEq, Repr

/-- Modelled from the spec: the store behind `db`, whose schema is not in the
source: the rows of `users` in the order an unordered select returns them, the
next `AUTOINCREMENT` value, and the clock reading `created_at` defaults to. -/
structure Db where
  rows : List Row
  nextId : Int
  now : Time
  deriving DecidableEq, Repr

/-- Modelled from the spec: the invariant `id PRIMARY KEY AUTOINCREMENT` maintains: ids
are pairwise distinct and below the counter, and the counter is a positive `int`. -/
def Db.WF (db : Db) : Prop :=
  (db.rows.map Row.id).Nodup ∧ (∀ r ∈ db.rows, r.id < db.nextId) ∧
    0 < db.nextId ∧ db.nextId ≤ maxInt

instance (db : Db) : Decidable db.WF := by
  unfold Db.WF; infer_instance

/-- A value bound to a `?` placeholder: the path id as text, or an `int64`. -/
inductive Param where
  | str (s : String)
  | int (i : Int)
  deriving DecidableEq, Repr

/-- The integer the store compares the `id` column with. The handlers bind a text
only after `Atoi` accepted it, and the store reads such a text as that integer. -/
def Param.key : Param → Option Int
  | Param.int i => some i
  | Param.str s => Atoi s

/-- The statement shapes the handlers issue. -/
inductive Stmt where
  /-- the statement `SELECT id, name, email, created_at FROM users` -/
  | selectAll
  /-- the statement `SELECT id, name, email, created_at FROM users WHERE id = ?` -/
  | selectById (id : Param)
  /-- the statement `SELECT created_at FROM users WHERE id = ?` -/
  | selectCreatedAt (id : Param)
  /-- the statement `SELECT EXISTS(SELECT 1 FROM users WHERE id = ?)` -/
  | existsById (id : Param)
  /-- the statement `INSERT INTO users (name, email) VALUES (?, ?)` -/
  | insert (name email : String)
  /-- the statement `UPDATE users SET name = ?, email = ? WHERE id = ?` -/
  | update (name email : String) (id : Param)
  /-- the statement `DELETE FROM users WHERE id = ?` -/
  | delete (id : Param)
  deriving DecidableEq, Repr

/-- An error value of `database/sql`. -/
inductive SqlErr where
  /-- the sentinel `sql.ErrNoRows` -/
  | noRows
  /-- any other error, with its text -/
  | other (msg : String)
  deriving DecidableEq, Repr

/-- The method `err.Error()`. -/
def SqlErr.Error : SqlErr → String
  | SqlErr.noRows => "sql: no rows in result set"
  | SqlErr.other msg => msg

/-- A failure of the result set of the select-all. -/
inductive RowsFault where
  /-- the call `rows.Scan` on row number `k` (from 0) returns the error -/
  | scan (k : Nat) (msg : String)
  /-- after `k` rows `rows.Next()` returns false because of the error, which
  `rows.Err()` then reports -/
  | iter (k : Nat) (msg : String)
  deriving DecidableEq, Repr

/-- The failures the store reports during one request: `call k` is the error of
the request's `k`-th driver call (`Query`, `QueryRow(..).Scan`, `Exec`,
`LastInsertId`), if it fails; `rows` a failure of the select-all's result set.
A failed call leaves the table as it was. -/
structure Faults where
  call : Nat → Option String
  rows : Option RowsFault

/-- No failure: every store operation of the request succeeds. -/
def Faults.none : Faults := ⟨fun _ => Option.none, Option.none⟩

/-- Modelled from the spec: the row a `WHERE id = ?` selects, the first (under the
primary key the only) row whose id equals the bound parameter. -/
def Db.find (db : Db) (p : Param) : Option Row :=
  match p.key with
  | Option.none => Option.none
  | some k => db.rows.find? (fun r => r.id = k)

/-- Result of `db.QueryRow("SELECT id, name, email, created_at FROM users WHERE id = ?", p)`
followed by its `Scan`. -/
def Db.selectById (db : Db) (f : Option String) (p : Param) : Except SqlErr Row :=
  match f with
  | some e => Except.error (SqlErr.other e)
  | Option.none =>
    match db.find p with
    | Option.none => Except.error SqlErr.noRows
    | some r => Except.ok r

/-- Result of `db.QueryRow("SELECT created_at FROM users WHERE id = ?", p)` followed
by its `Scan`. -/
def Db.selectCreatedAt (db : Db) (f : Option String) (p : Param) : Except SqlErr Time :=
  match f with
  | some e => Except.error (SqlErr.other e)
  | Option.none =>
    match db.find p with
    | Option.none => Except.error SqlErr.noRows
    | some r => Except.ok r.created_at

/-- Result of `db.QueryRow("SELECT EXISTS(SELECT 1 FROM users WHERE id = ?)", p)`
followed by its `Scan`. -/
def Db.existsById (db : Db) (f : Option String) (p : Param) : Except SqlErr Bool :=
  match f with
  | some e => Except.error (SqlErr.other e)
  | Option.none => Except.ok (db.find p).isSome

/-- Modelled from the spec: result of
`db.Exec("INSERT INTO users (name, email) VALUES (?, ?)", name, email)` on the table
above: the new row gets the counter as id and the clock as `created_at`; the
result is the table after the insert and the id, as `LastInsertId` reports it. -/
def Db.insert (db : Db) (f : Option String) (name email : String) : Except SqlErr (Db × Int) :=
  match f with
  | some e => Except.error (SqlErr.other e)
  | Option.none =>
    Except.ok ({ db with rows := db.rows ++ [⟨db.nextId, name, email, db.now⟩],
                         nextId := db.nextId + 1 }, db.nextId)

/-- Modelled from the spec: result of
`db.Exec("UPDATE users SET name = ?, email = ? WHERE id = ?", name, email, p)`: the
columns `id` and `created_at` of the rows it touches stay as they are. -/
def Db.update (db : Db) (f : Option String) (name email : String) (p : Param) : Except SqlErr Db :=
  match f with
  | some e => Except.error (SqlErr.other e)
  | Option.none =>
    let rows := db.rows.map (fun r =>
      if p.key = some r.id then { r with name := name, email := email } else r)
    Except.ok { db with rows := rows }

/-- Modelled from the spec: result of `db.Exec("DELETE FROM users WHERE id = ?", p)`. -/
def Db.delete (db : Db) (f : Option String) (p : Param) : Except SqlErr Db :=
  match f with
  | some e => Except.error (SqlErr.other e)
  | Option.none =>
    let rows := db.rows.filter (fun r => p.key ≠ some r.id)
    Except.ok { db with rows := rows }

/-- The result set `*sql.Rows` of the select-all: for each row that `rows.Next()`
delivers the outcome of its `rows.Scan`, and the error `rows.Err()` holds once
`rows.Next()` has returned false. -/
structure Rows where
  items : List (Except String Row)
  err : Option String

/-- Result of `db.Query("SELECT id, name, email, created_at FROM users")`. -/
def Db.selectAll (db : Db) (ft : Faults) : Except SqlErr Rows :=
  match ft.call 0 with
  | some e => Except.error (SqlErr.other e)
  | Option.none =>
    match ft.rows with
    | Option.none => Except.ok ⟨db.rows.map Except.ok, Option.none⟩
    | some (RowsFault.scan k e) =>
      Except.ok ⟨(db.rows.take k).map Except.ok ++
        (match db.rows.drop k with
         | [] => []
         | _ :: rest => Except.error e :: rest.map Except.ok), Option.none⟩
    | some (RowsFault.iter k e) => Except.ok ⟨(db.rows.take k).map Except.ok, some e⟩

/-! ## The handlers of `main.go` -/

/-- An incoming request: method, path (`r.URL.Path`, in the clean form the router
matches on), the path variables the router extracted, and the first JSON value
of the body (`none` when the body does not start with one). -/
structure Request where
  method : String
  path : String
  vars : List (String × String)
  body : Option Json

/-- The lookup `mux.Vars(r)[name]`: the empty string for an absent variable. -/
def Request.Vars (r : Request) (name : String) : String :=
  match r.vars.find? (fun p => p.1 = name) with
  | some p => p.2
  | none => ""

/-- What serving a request leaves behind: the response writer, the store, and
the statements issued to the store, in order. -/
structure Outcome where
  w : ResponseWriter
  db : Db
  log : List Stmt
  deriving DecidableEq, Repr

/-- A handler, run on the store `db` under the store failures `ft`. -/
abbrev Handler := ResponseWriter → Request → Db → Faults → Outcome

/-- The statement `users = append(users, user)` on a slice that may be nil (`none`). -/
def appendUser (users : Option (List User)) (user : User) : Option (List User) :=
  match users with
  | none => some [user]
  | some us => some (us ++ [user])

/-- The call `rows.Scan(&user.ID, &user.Name, &user.Email, &user.CreatedAt)` on `var user User`. -/
def scanRow (r : Row) : User := ⟨r.id, r.name, r.email, r.created_at⟩

/-- The loop `for rows.Next() { ... }` of `getUsers`: the slice built when the
loop is left at its end, or the error of the `Scan` that made the handler return. -/
def scanLoop : List (Except String Row) → Option (List User) → Except String (Option (List User))
  | [], users => Except.ok users
  | Except.error e :: _, _ => Except.error e
  | Except.ok r :: rest, users => scanLoop rest (appendUser users (scanRow r))

/-- The handler `getUsers`. -/
def getUsers : Handler := fun w _ db ft =>
  let w := w.Set "Content-Type" "application/json"
  match db.selectAll ft with
  | Except.error err => ⟨Error w err.Error 500, db, [Stmt.selectAll]⟩
  | Except.ok rows =>
    match scanLoop rows.items none with
    | Except.error err => ⟨Error w err 500, db, [Stmt.selectAll]⟩
    | Except.ok users =>
      let users := if users = none then some [] else users
      ⟨Encode w (Body.users users), db, [Stmt.selectAll]⟩

/-- The handler `getUser`. -/
def getUser : Handler := fun w r db ft =>
  let w := w.Set "Content-Type" "application/json"
  let id := r.Vars "id"
  if id = "" then ⟨Error w "User ID is required" 400, db, []⟩
  else
    match Atoi id with
    | none => ⟨Error w "Invalid user ID format" 400, db, []⟩
    | some _ =>
      match db.selectById (ft.call 0) (Param.str id) with
      | Except.error err =>
        if err = SqlErr.noRows then
          ⟨Error w "User not found" 404, db, [Stmt.selectById (Param.str id)]⟩
        else
          ⟨Error w err.Error 500, db, [Stmt.selectById (Param.str id)]⟩
      | Except.ok row => ⟨Encode w (Body.user (scanRow row)), db, [Stmt.selectById (Param.str id)]⟩

/-- The handler `createUser`; `parseTime` is the RFC 3339 parser of package `time`. -/
def createUser (parseTime : String → Option Time) : Handler := fun w r db ft =>
  let w := w.Set "Content-Type" "application/json"
  match decodeUser parseTime r.body with
  | none => ⟨Error w "Invalid JSON format" 400, db, []⟩
  | some user =>
    if user.Name = "" ∨ user.Email = "" then
      ⟨Error w "Name and email are required" 400, db, []⟩
    else
      let ins := Stmt.insert user.Name user.Email
      match db.insert (ft.call 0) user.Name user.Email with
      | Except.error err => ⟨Error w err.Error 500, db, [ins]⟩
      | Except.ok (db1, id) =>
        match ft.call 1 with
        | some err => ⟨Error w err 500, db1, [ins]⟩
        | none =>
          let user := { user with ID := id }
          let sel := Stmt.selectCreatedAt (Param.int id)
          match db1.selectCreatedAt (ft.call 2) (Param.int id) with
          | Except.error err => ⟨Error w err.Error 500, db1, [ins, sel]⟩
          | Except.ok t =>
            let user := { user with CreatedAt := t }
            let w := w.WriteHeader 201
            ⟨Encode w (Body.user user), db1, [ins, sel]⟩

/-- The handler `updateUser`. -/
def updateUser (parseTime : String → Option Time) : Handler := fun w r db ft =>
  let w := w.Set "Content-Type" "application/json"
  let id := r.Vars "id"
  if id = "" then ⟨Error w "User ID is required" 400, db, []⟩
  else
    match Atoi id with
    | none => ⟨Error w "Invalid user ID format" 400, db, []⟩
    | some userID =>
      match decodeUser parseTime r.body with
      | none => ⟨Error w "Invalid JSON format" 400, db, []⟩
      | some user =>
        if user.Name = "" ∨ user.Email = "" then
          ⟨Error w "Name and email are required" 400, db, []⟩
        else
          let ex := Stmt.existsById (Param.str id)
          match db.existsById (ft.call 0) (Param.str id) with
          | Except.error err => ⟨Error w err.Error 500, db, [ex]⟩
          | Except.ok false => ⟨Error w "User not found" 404, db, [ex]⟩
          | Except.ok true =>
            let up := Stmt.update user.Name user.Email (Param.str id)
            match db.update (ft.call 1) user.Name user.Email (Param.str id) with
            | Except.error err => ⟨Error w err.Error 500, db, [ex, up]⟩
            | Except.ok db1 =>
              let user := { user with ID := userID }
              let sel := Stmt.selectCreatedAt (Param.str id)
              match db1.selectCreatedAt (ft.call 2) (Param.str id) with
              | Except.error err => ⟨Error w err.Error 500, db1, [ex, up, sel]⟩
              | Except.ok t =>
                let user := { user with CreatedAt := t }
                ⟨Encode w (Body.user user), db1, [ex, up, sel]⟩

/-- The handler `deleteUser`. -/
def deleteUser : Handler := fun w r db ft =>
  let w := w.Set "Content-Type" "application/json"
  let id := r.Vars "id"
  if id = "" then ⟨Error w "User ID is required" 400, db, []⟩
  else
    match Atoi id with
    | none => ⟨Error w "Invalid user ID format" 400, db, []⟩
    | some _ =>
      let ex := Stmt.existsById (Param.str id)
      match db.existsById (ft.call 0) (Param.str id) with
      | Except.error err => ⟨Error w err.Error 500, db, [ex]⟩
      | Except.ok false => ⟨Error w "User not found" 404, db, [ex]⟩
      | Except.ok true =>
        let del := Stmt.delete (Param.str id)
        match db.delete (ft.call 1) (Param.str id) with
        | Except.error err => ⟨Error w err.Error 500, db, [ex, del]⟩
        | Except.ok db1 => ⟨w.WriteHeader 204, db1, [ex, del]⟩

/-- The function `corsMiddleware`. -/
def corsMiddleware (next : Handler) : Handler := fun w r db ft =>
  let w := w.Set "Access-Control-Allow-Origin" "*"
  let w := w.Set "Access-Control-Allow-Methods" "GET, POST, PUT, DELETE, OPTIONS"
  let w := w.Set "Access-Control-Allow-Headers" "Content-Type"
  if r.method = "OPTIONS" then ⟨w.WriteHeader 200, db, []⟩
  else next w r db ft

/-! ## gorilla/mux: the router built in `main` -/

/-- A segment of a path template: literal text, or a variable `{name}`, which
matches one or more characters other than `/`. -/
inductive Seg where
  | lit (s : String)
  | var (name : String)

/-- A route `router.HandleFunc(template, handler).Methods(methods...)`. -/
structure Route where
  tpl : List Seg
  methods : List String
  handler : Handler

/-- The pieces of a path between its slashes. -/
def splitSlash : List Char → List (List Char)
  | [] => [[]]
  | c :: cs =>
    if c = '/' then [] :: splitSlash cs
    else
      match splitSlash cs with
      | [] => [[c]]
      | s :: ss => (c :: s) :: ss

/-- Matching of path pieces against template segments, collecting the variables. -/
def matchSegs : List Seg → List (List Char) → Option (List (String × String))
  | [], [] => some []
  | Seg.lit s :: ts, p :: ps => if p = s.toList then matchSegs ts ps else none
  | Seg.var n :: ts, p :: ps =>
    if p = [] then none else (matchSegs ts ps).map (fun vs => (n, String.mk p) :: vs)
  | _, _ => none

/-- The path matcher of a route: the whole path must match the template. -/
def matchPath (tpl : List Seg) (path : String) : Option (List (String × String)) :=
  match path.toList with
  | [] => none
  | c :: rest => if c = '/' then matchSegs tpl (splitSlash rest) else none

/-- Result of `Route.Match`. -/
inductive RouteMatch where
  /-- path and method match; the path variables -/
  | matched (vars : List (String × String))
  /-- the path matches, the method does not (`ErrMethodMismatch`) -/
  | methodMismatch
  /-- the path does not match -/
  | noMatch

/-- The method `Route.Match`: the path matcher, then the method matcher. -/
def Route.Match (rt : Route) (r : Request) : RouteMatch :=
  match matchPath rt.tpl r.path with
  | none => RouteMatch.noMatch
  | some vars =>
    if r.method ∈ rt.methods then RouteMatch.matched vars else RouteMatch.methodMismatch

/-- Result of `Router.Match`. -/
inductive RouterMatch where
  /-- a route matched: its handler and the path variables -/
  | found (h : Handler) (vars : List (String × String))
  /-- no route matched and some route failed on the method only -/
  | methodMismatch
  /-- no route matched the path -/
  | notFound

/-- The method `Router.Match`: the routes in registration order; `mismatch`
records that an earlier route failed on the method only. -/
def routerMatch : List Route → Request → Bool → RouterMatch
  | [], _, mismatch => if mismatch then RouterMatch.methodMismatch else RouterMatch.notFound
  | rt :: rest, r, mismatch =>
    match rt.Match r with
    | RouteMatch.matched vars => RouterMatch.found rt.handler vars
    | RouteMatch.methodMismatch => routerMatch rest r true
    | RouteMatch.noMatch => routerMatch rest r mismatch

/-- The method `Router.ServeHTTP` of a router with the given routes and the
middlewares installed by `Use`: the middlewares wrap the handler of a matched
route only; without a match the router answers 405 (`methodNotAllowed`) or 404
(`http.NotFound`) itself. The redirect (301) with which the router answers a path
that is not in clean form, such as `//users`, is left out: `Request.path` is clean. -/
def ServeHTTP (routes : List Route) (middlewares : List (Handler → Handler)) : Handler :=
  fun w r db ft =>
    match routerMatch routes r false with
    | RouterMatch.found h vars =>
      (middlewares.foldr (fun mw next => mw next) h) w { r with vars := vars } db ft
    | RouterMatch.methodMismatch => ⟨w.WriteHeader 405, db, []⟩
    | RouterMatch.notFound => ⟨Error w "404 page not found" 404, db, []⟩

/-- The five routes `main` registers. -/
def routes (parseTime : String → Option Time) : List Route :=
  [ ⟨[Seg.lit "users"], ["GET"], getUsers⟩,
    ⟨[Seg.lit "user", Seg.var "id"], ["GET"], getUser⟩,
    ⟨[Seg.lit "user"], ["POST"], createUser parseTime⟩,
    ⟨[Seg.lit "user", Seg.var "id"], ["PUT"], updateUser parseTime⟩,
    ⟨[Seg.lit "user", Seg.var "id"], ["DELETE"], deleteUser⟩ ]

/-- The service `main` starts: the router with `corsMiddleware` installed,
serving one request with a fresh response writer. -/
def main (parseTime : String → Option Time) (r : Request) (db : Db) (ft : Faults) : Outcome :=
  ServeHTTP (routes parseTime) [corsMiddleware] ResponseWriter.new r db ft

/-! ## Sample data -/

/-- A store with two rows. -/
def sampleDb : Db :=
  ⟨[⟨1, "ann", "ann@example.com", ⟨10⟩⟩, ⟨2, "bob", "bob@example.com", ⟨11⟩⟩], 3, ⟨20⟩⟩

/-- A JSON body with a name and an email. -/
def sampleBody : Json :=
  Json.obj [("name", Json.str "cat"), ("email", Json.str "cat@example.com")]

/-! ## Theorems -/

/-- The value of a digit run, by its first digit. -/
theorem digitsValue_cons (c : Char) (cs : List Char) :
    digitsValue (c :: cs) = (c.toNat - 48) * 10 ^ cs.length + digitsValue cs := by
  simp [digitsValue, Nat.ofDigits_append, Nat.ofDigits_singleton]
  ring

/-- The digit loop succeeds exactly on runs of digits and then yields the number they denote, appended to the accumulator. -/
theorem parseDigits_eq (cs : List Char) (a : Nat) :
    parseDigits cs a =
      if cs.all Char.isDigit then some (a * 10 ^ cs.length + digitsValue cs) else none := by
  induction cs generalizing a with
  | nil => simp [parseDigits, digitsValue]
  | cons c cs ih =>
    by_cases hc : c.isDigit = true
    · simp only [parseDigits, digitVal, hc, if_true, ih, List.all_cons, Bool.true_and,
        digitsValue_cons, List.length_cons]
      by_cases hall : cs.all Char.isDigit = true
      · simp only [hall, if_true]
        congr 1
        ring
      · simp [hall]
    · simp [parseDigits, digitVal, hc]

/-- The range check of `Atoi`, read as a condition on the result. -/
theorem range_guard (x v : Int) :
    (if minInt ≤ x ∧ x ≤ maxInt then some x else none) = some v ↔
      x = v ∧ minInt ≤ v ∧ v ≤ maxInt := by
  constructor
  · intro hv
    split at hv
    · rename_i hr
      simp only [Option.some.injEq] at hv
      subst hv
      exact ⟨rfl, hr.1, hr.2⟩
    · cases hv
  · rintro ⟨rfl, h1, h2⟩
    simp [h1, h2]

/-- Refinement of `Atoi`: it returns `v` exactly when the text is an integer in the sense of the specification, denotes `v`, and `v` fits Go's `int`. -/
theorem Atoi_eq_some_iff (s : String) (v : Int) :
    Atoi s = some v ↔
      isIntegerText s = true ∧ integerValue s = v ∧ minInt ≤ v ∧ v ≤ maxInt := by
  unfold Atoi isIntegerText integerValue splitSign
  cases hs : s.toList with
  | nil => simp
  | cons c cs =>
    by_cases hm : c = '-'
    · subst hm
      cases cs with
      | nil => simp
      | cons d ds =>
        simp only [if_true, parseDigits_eq, true_or]
        by_cases hall : (d :: ds).all Char.isDigit = true
        · simp only [hall, if_true, zero_mul, zero_add, range_guard]
          simp
        · simp [hall]
    · by_cases hp : c = '+'
      · subst hp
        cases cs with
        | nil => simp
        | cons d ds =>
          simp only [hm, if_false, if_true, parseDigits_eq, or_true]
          by_cases hall : (d :: ds).all Char.isDigit = true
          · simp only [hall, if_true, zero_mul, zero_add, Bool.false_eq_true, if_false,
              range_guard]
            simp
          · simp [hall]
      · simp only [hm, hp, if_false, parseDigits_eq, or_self]
        by_cases hall : (c :: cs).all Char.isDigit = true
        · simp only [hall, if_true, zero_mul, zero_add, Bool.false_eq_true, if_false,
            range_guard]
          simp
        · simp [hall]

/-- The bytes `'0' + d` for `d < 10` are digits, with value `d`. -/
theorem digitChar_facts : ∀ d, d < 10 →
    (digitChar d).isDigit = true ∧ (digitChar d).toNat - 48 = d := by
  decide

/-- Reading a digit character gives the digit back. -/
theorem digitVal_digitChar (d : Nat) (hd : d < 10) : digitVal (digitChar d) = some d := by
  simp [digitVal, (digitChar_facts d hd).1, (digitChar_facts d hd).2]

/-- Reading what `formatBits` wrote in front of `acc` continues on `acc` with the number written. -/
theorem parseDigits_formatBits (fuel : Nat) : ∀ (u : Nat) (acc : List Char), u < fuel →
    parseDigits (formatBits fuel u acc) 0 = parseDigits acc u := by
  induction fuel with
  | zero => intro u acc hu; omega
  | succ fuel ih =>
    intro u acc hu
    by_cases h10 : 10 ≤ u
    · have hlt : u / 10 < fuel := by omega
      have hmod : u % 10 < 10 := Nat.mod_lt _ (by decide)
      simp only [formatBits, h10, if_true]
      rw [ih (u / 10) _ hlt]
      simp only [parseDigits, digitVal_digitChar _ hmod]
      congr 1
      omega
    · have hu10 : u < 10 := by omega
      simp only [formatBits, h10, if_false, parseDigits, digitVal_digitChar _ hu10]
      congr 1
      omega

/-- The text `formatBits` produces starts with a digit. -/
theorem formatBits_head (fuel : Nat) : ∀ (u : Nat) (acc : List Char),
    (fuel ≠ 0 ∨ ∃ c rest, acc = c :: rest ∧ c.isDigit = true) →
    ∃ c rest, formatBits fuel u acc = c :: rest ∧ c.isDigit = true := by
  induction fuel with
  | zero =>
    intro u acc h
    rcases h with h | h
    · exact absurd rfl h
    · simpa [formatBits] using h
  | succ fuel ih =>
    intro u acc _
    by_cases h10 : 10 ≤ u
    · simp only [formatBits, h10, if_true]
      exact ih _ _ (Or.inr ⟨_, _, rfl, (digitChar_facts _ (Nat.mod_lt _ (by decide))).1⟩)
    · simp only [formatBits, h10, if_false]
      exact ⟨_, _, rfl, (digitChar_facts _ (by omega)).1⟩

/-- Round trip of the id text: `Atoi` reads back every `int` that `Itoa` wrote. -/
theorem Atoi_Itoa (i : Int) (hlo : minInt ≤ i) (hhi : i ≤ maxInt) : Atoi (Itoa i) = some i := by
  obtain ⟨c, rest, hds, hc⟩ := formatBits_head (i.natAbs + 1) i.natAbs [] (Or.inl (by omega))
  have hp : parseDigits (c :: rest) 0 = some i.natAbs := by
    rw [← hds, parseDigits_formatBits (i.natAbs + 1) i.natAbs [] (by omega)]
    rfl
  by_cases hneg : i < 0
  · have hv : -((i.natAbs : Nat) : Int) = i := by omega
    simp only [Atoi, Itoa, hneg, if_true, splitSign, hds, String.toList, hp, hv, hlo, hhi,
      and_self]
  · have hv : ((i.natAbs : Nat) : Int) = i := by omega
    have hm : c ≠ '-' := by rintro rfl; exact absurd hc (by decide)
    have hplus : c ≠ '+' := by rintro rfl; exact absurd hc (by decide)
    simp only [Atoi, Itoa, hneg, if_false, splitSign, hds, String.toList, hm, hplus, hp, hv,
      hlo, hhi, and_self, if_true, Bool.false_eq_true]

/-- The scan loop on rows that all scan, started on a non-nil slice. -/
theorem scanLoop_ok_some (rows : List Row) (us : List User) :
    scanLoop (rows.map Except.ok) (some us) = Except.ok (some (us ++ rows.map scanRow)) := by
  induction rows generalizing us with
  | nil => simp [scanLoop]
  | cons r rest ih => simp [scanLoop, appendUser, ih]

/-- The scan loop on rows that all scan, started on the nil slice. -/
theorem scanLoop_ok_none (rows : List Row) :
    scanLoop (rows.map Except.ok) none =
      Except.ok (if rows = [] then none else some (rows.map scanRow)) := by
  cases rows with
  | nil => simp [scanLoop]
  | cons r rest => simp [scanLoop, appendUser, scanLoop_ok_some]

/-- Claim C9 (list result shape): on every store on which the select-all succeeds
(the query succeeds and the result set reports no failure), `getUsers` answers 200
with a JSON array holding one element per row of the table, in the order of the
store, each carrying the id, name, email and created_at of its row (`scanRow`); the
body is never `null`, and on an empty table it is the empty array. -/
theorem getUsers_lists_every_row (h : List (String × String)) (r : Request) (db : Db)
    (ft : Faults) (hq : ft.call 0 = none) (hr : ft.rows = none) :
    (getUsers ⟨h, none, Body.empty⟩ r db ft).w.code = 200 ∧
    (getUsers ⟨h, none, Body.empty⟩ r db ft).w.body = Body.users (some (db.rows.map scanRow)) ∧
    (getUsers ⟨h, none, Body.empty⟩ r db ft).w.body ≠ Body.users none ∧
    (db.rows = [] → (getUsers ⟨h, none, Body.empty⟩ r db ft).w.body = Body.users (some [])) ∧
    (getUsers ⟨h, none, Body.empty⟩ r db ft).db = db ∧
    (getUsers ⟨h, none, Body.empty⟩ r db ft).log = [Stmt.selectAll] := by
  have key : getUsers ⟨h, none, Body.empty⟩ r db ft =
      ⟨Encode (ResponseWriter.Set ⟨h, none, Body.empty⟩ "Content-Type" "application/json")
        (Body.users (some (db.rows.map scanRow))), db, [Stmt.selectAll]⟩ := by
    simp only [getUsers, Db.selectAll, hq, hr, scanLoop_ok_none]
    by_cases hn : db.rows = [] <;> simp [hn]
  rw [key]
  refine ⟨rfl, rfl, ?_, ?_, rfl, rfl⟩
  · simp [Encode, ResponseWriter.Write]
  · intro hn; simp [Encode, ResponseWriter.Write, hn]

/-- Claim C8 (list failure policy), evaluated where it fails: when the result set
of the select-all breaks off after `k` rows with the error `e` (`rows.Next()` returns
false and `rows.Err()` holds `e`), `getUsers` answers 200 with the list of the rows
read so far, not 500 with the text `e`. -/
theorem getUsers_ignores_iteration_error (h : List (String × String)) (r : Request) (db : Db)
    (k : Nat) (e : String) :
    (getUsers ⟨h, none, Body.empty⟩ r db ⟨fun _ => none, some (RowsFault.iter k e)⟩).w.code = 200 ∧
    (getUsers ⟨h, none, Body.empty⟩ r db ⟨fun _ => none, some (RowsFault.iter k e)⟩).w.body
      = Body.users (some ((db.rows.take k).map scanRow)) := by
  have key : getUsers ⟨h, none, Body.empty⟩ r db ⟨fun _ => none, some (RowsFault.iter k e)⟩ =
      ⟨Encode (ResponseWriter.Set ⟨h, none, Body.empty⟩ "Content-Type" "application/json")
        (Body.users (some ((db.rows.take k).map scanRow))), db, [Stmt.selectAll]⟩ := by
    simp only [getUsers, Db.selectAll, scanLoop_ok_none]
    by_cases hn : List.take k db.rows = [] <;> simp [hn]
  rw [key]
  exact ⟨rfl, rfl⟩

/-- Claim C2: for every store, every store failure plan and every create request
whose body decodes (step (a) of the validation passes) to a payload with an empty
or missing name or an empty or missing email, `createUser` answers 400 with the
message "Name and email are required", leaves the store as it was and issues no
statement (no insert). -/
theorem createUser_rejects_missing_fields (parseTime : String → Option Time)
    (h : List (String × String)) (r : Request) (db : Db) (ft : Faults) (u : User)
    (hd : decodeUser parseTime r.body = some u) (he : u.Name = "" ∨ u.Email = "") :
    (createUser parseTime ⟨h, none, Body.empty⟩ r db ft).w.code = 400 ∧
    (createUser parseTime ⟨h, none, Body.empty⟩ r db ft).w.body
      = Body.text "Name and email are required" ∧
    (createUser parseTime ⟨h, none, Body.empty⟩ r db ft).db = db ∧
    (createUser parseTime ⟨h, none, Body.empty⟩ r db ft).log = [] := by
  have key : createUser parseTime ⟨h, none, Body.empty⟩ r db ft =
      ⟨Error (ResponseWriter.Set ⟨h, none, Body.empty⟩ "Content-Type" "application/json")
        "Name and email are required" 400, db, []⟩ := by
    simp only [createUser, hd, he, if_true]
  rw [key]
  exact ⟨rfl, rfl, rfl, rfl⟩

/-- A lookup by an id text that denotes `i` finds nothing when no row has id `i`. -/
theorem find_eq_none_of_absent (db : Db) (s : String) (i : Int) (hs : Atoi s = some i)
    (ha : ∀ row ∈ db.rows, row.id ≠ i) : db.find (Param.str s) = none := by
  simp only [Db.find, Param.key, hs]
  rw [List.find?_eq_none]
  intro row hrow
  simpa using ha row hrow

/-- A lookup by an id text that denotes `i` finds a row when some row has id `i`. -/
theorem find_isSome_of_present (db : Db) (s : String) (i : Int) (hs : Atoi s = some i)
    (row : Row) (hm : row ∈ db.rows) (hi : row.id = i) : (db.find (Param.str s)).isSome = true := by
  simp only [Db.find, Param.key, hs]
  rw [List.find?_isSome]
  exact ⟨row, hm, by simpa using hi⟩

/-- A text that `Atoi` accepts is not empty. -/
theorem Atoi_ne_empty (s : String) (i : Int) (hs : Atoi s = some i) : s ≠ "" := by
  rintro rfl
  simp [Atoi, splitSign] at hs

/-- Claim C6 (update of an absent row): for every store with no row of id `i`, every
update request whose path id denotes `i` and whose body decodes to a payload with a
non-empty name and email, when the existence query succeeds, `updateUser` issues
the existence query and nothing else (no UPDATE), answers 404 "User not found", and
leaves the store as it was. -/
theorem updateUser_absent_row (parseTime : String → Option Time)
    (h : List (String × String)) (r : Request) (db : Db) (ft : Faults) (u : User) (i : Int)
    (hid : Atoi (r.Vars "id") = some i)
    (hd : decodeUser parseTime r.body = some u) (hn : u.Name ≠ "") (he : u.Email ≠ "")
    (ha : ∀ row ∈ db.rows, row.id ≠ i) (hq : ft.call 0 = none) :
    (updateUser parseTime ⟨h, none, Body.empty⟩ r db ft).w.code = 404 ∧
    (updateUser parseTime ⟨h, none, Body.empty⟩ r db ft).w.body = Body.text "User not found" ∧
    (updateUser parseTime ⟨h, none, Body.empty⟩ r db ft).db = db ∧
    (updateUser parseTime ⟨h, none, Body.empty⟩ r db ft).log
      = [Stmt.existsById (Param.str (r.Vars "id"))] := by
  have hne := Atoi_ne_empty _ _ hid
  have hf := find_eq_none_of_absent db _ i hid ha
  have key : updateUser parseTime ⟨h, none, Body.empty⟩ r db ft =
      ⟨Error (ResponseWriter.Set ⟨h, none, Body.empty⟩ "Content-Type" "application/json")
        "User not found" 404, db, [Stmt.existsById (Param.str (r.Vars "id"))]⟩ := by
    simp only [updateUser, hid, hd, hn, he, hne, Db.existsById, hq, hf, if_false, or_self,
      Option.isSome_none]
  rw [key]
  exact ⟨rfl, rfl, rfl, rfl⟩


/-- Claim C4 (delete removes the row and is not idempotent-success): for every store
that contains a row with id `i`, `deleteUser` with a path id denoting `i`, the store
operations succeeding, answers 204 with an empty body and leaves a store without a
row of id `i` that is otherwise unchanged; on that store `getUser` with the same id
answers 404 "User not found", and so does a second `deleteUser`, which changes
nothing. -/
theorem deleteUser_removes_row (h h2 h3 : List (String × String)) (r : Request) (db : Db)
    (ft ft2 ft3 : Faults) (i : Int) (row0 : Row)
    (hid : Atoi (r.Vars "id") = some i) (hm : row0 ∈ db.rows) (hi : row0.id = i)
    (hq0 : ft.call 0 = none) (hq1 : ft.call 1 = none)
    (hq2 : ft2.call 0 = none) (hq3 : ft3.call 0 = none) :
    let o := deleteUser ⟨h, none, Body.empty⟩ r db ft
    let g := getUser ⟨h2, none, Body.empty⟩ r o.db ft2
    let d := deleteUser ⟨h3, none, Body.empty⟩ r o.db ft3
    o.w.code = 204 ∧ o.w.body = Body.empty ∧
    o.db.rows = db.rows.filter (fun row => row.id ≠ i) ∧
    o.db.nextId = db.nextId ∧ o.db.now = db.now ∧
    (∀ row ∈ o.db.rows, row.id ≠ i) ∧
    g.w.code = 404 ∧ g.w.body = Body.text "User not found" ∧
    d.w.code = 404 ∧ d.w.body = Body.text "User not found" ∧ d.db = o.db := by
  intro o g d
  have hne := Atoi_ne_empty _ _ hid
  have hf := find_isSome_of_present db _ i hid row0 hm hi
  have hrows : db.rows.filter (fun row => decide (some i ≠ some row.id))
      = db.rows.filter (fun row => decide (row.id ≠ i)) := by
    apply List.filter_congr
    intro row _
    simp [eq_comm]
  have ko : o = ⟨ResponseWriter.WriteHeader
        (ResponseWriter.Set ⟨h, none, Body.empty⟩ "Content-Type" "application/json") 204,
        { db with rows := db.rows.filter (fun row => row.id ≠ i) },
        [Stmt.existsById (Param.str (r.Vars "id")), Stmt.delete (Param.str (r.Vars "id"))]⟩ := by
    simp only [o, deleteUser, hid, hne, Db.existsById, hq0, hq1, hf, if_false, Db.delete,
      Param.key, hrows]
  have hgone : ∀ row ∈ o.db.rows, row.id ≠ i := by
    intro row hrow
    rw [ko] at hrow
    simpa using (List.mem_filter.mp hrow).2
  have hf2 := find_eq_none_of_absent o.db _ i hid hgone
  have kg : g = ⟨Error (ResponseWriter.Set ⟨h2, none, Body.empty⟩ "Content-Type" "application/json")
        "User not found" 404, o.db, [Stmt.selectById (Param.str (r.Vars "id"))]⟩ := by
    simp only [g, getUser, hid, hne, Db.selectById, hq2, hf2, if_false, if_true]
  have kd : d = ⟨Error (ResponseWriter.Set ⟨h3, none, Body.empty⟩ "Content-Type" "application/json")
        "User not found" 404, o.db, [Stmt.existsById (Param.str (r.Vars "id"))]⟩ := by
    simp only [d, deleteUser, hid, hne, Db.existsById, hq3, hf2, if_false, Option.isSome_none]
  refine ⟨?_, ?_, ?_, ?_, ?_, hgone, ?_, ?_, ?_, ?_, ?_⟩
  · rw [ko]; rfl
  · rw [ko]; rfl
  · rw [ko]
  · rw [ko]
  · rw [ko]
  · rw [kg]; rfl
  · rw [kg]; rfl
  · rw [kd]; rfl
  · rw [kd]; rfl
  · rw [kd]

/-- Under pairwise distinct ids a lookup by the id of a row finds that row. -/
theorem find_id_of_nodup (rows : List Row) (row0 : Row)
    (hnd : (rows.map Row.id).Nodup) (hm : row0 ∈ rows) :
    rows.find? (fun row => decide (row.id = row0.id)) = some row0 := by
  induction rows with
  | nil => cases hm
  | cons a rest ih =>
    rw [List.map_cons, List.nodup_cons] at hnd
    rcases List.mem_cons.mp hm with rfl | hin
    · simp
    · have hne : a.id ≠ row0.id := by
        intro hEq
        exact hnd.1 (hEq ▸ List.mem_map_of_mem Row.id hin)
      simp [List.find?_cons, hne, ih hnd.2 hin]

/-- Claim C3, as amended (update preserves identity and creation time): for every
well-formed store that contains a row `row0` with id `i`, every update request whose
path id denotes `i` and whose body decodes into a `User` with non-empty name and
email, whatever id and created_at it decodes to, `updateUser` (the store operations
succeeding) answers 200 with the object of id `i`, the new name and email and the
created_at of `row0`; the rows with id `i` get the new name and email and keep
their id and created_at, every other row, the counter and the clock are unchanged. -/
theorem updateUser_preserves_identity (parseTime : String → Option Time)
    (h : List (String × String)) (r : Request) (db : Db) (ft : Faults) (u : User) (i : Int)
    (row0 : Row)
    (hid : Atoi (r.Vars "id") = some i)
    (hd : decodeUser parseTime r.body = some u) (hn : u.Name ≠ "") (he : u.Email ≠ "")
    (hwf : db.WF) (hm : row0 ∈ db.rows) (hi : row0.id = i)
    (hq0 : ft.call 0 = none) (hq1 : ft.call 1 = none) (hq2 : ft.call 2 = none) :
    let o := updateUser parseTime ⟨h, none, Body.empty⟩ r db ft
    o.w.code = 200 ∧
    o.w.body = Body.user ⟨i, u.Name, u.Email, row0.created_at⟩ ∧
    o.db.rows = db.rows.map (fun row =>
      if row.id = i then ⟨row.id, u.Name, u.Email, row.created_at⟩ else row) ∧
    (⟨i, u.Name, u.Email, row0.created_at⟩ : Row) ∈ o.db.rows ∧
    (∀ row ∈ db.rows, row.id ≠ i → row ∈ o.db.rows) ∧
    o.db.nextId = db.nextId ∧ o.db.now = db.now := by
  intro o
  have hne := Atoi_ne_empty _ _ hid
  have hf := find_isSome_of_present db _ i hid row0 hm hi
  have hrows : db.rows.map (fun row =>
        if some i = some row.id then { row with name := u.Name, email := u.Email } else row)
      = db.rows.map (fun row =>
        if row.id = i then ⟨row.id, u.Name, u.Email, row.created_at⟩ else row) := by
    apply List.map_congr_left
    intro row _
    by_cases hc : row.id = i
    · simp [hc]
    · have hc2 : ¬ i = row.id := fun hEq => hc hEq.symm
      simp [hc, hc2]
  have hfind : (db.rows.map (fun row =>
        if row.id = i then (⟨row.id, u.Name, u.Email, row.created_at⟩ : Row) else row)).find?
        (fun row => decide (row.id = i)) = some ⟨i, u.Name, u.Email, row0.created_at⟩ := by
    rw [List.find?_map]
    have hcomp : ((fun row : Row => decide (row.id = i)) ∘ fun row : Row =>
        if row.id = i then (⟨row.id, u.Name, u.Email, row.created_at⟩ : Row) else row)
        = fun row => decide (row.id = row0.id) := by
      funext row
      by_cases hc : row.id = i <;> simp [hc, hi]
    rw [hcomp, find_id_of_nodup db.rows row0 hwf.1 hm]
    simp [hi]
  have hf2 : (db.rows.find? (fun row => decide (row.id = i))).isSome = true := by
    simpa [Db.find, Param.key, hid] using hf
  have ko : o = ⟨Encode
        (ResponseWriter.Set ⟨h, none, Body.empty⟩ "Content-Type" "application/json")
        (Body.user ⟨i, u.Name, u.Email, row0.created_at⟩),
        { db with rows := db.rows.map (fun row =>
            if row.id = i then ⟨row.id, u.Name, u.Email, row.created_at⟩ else row) },
        [Stmt.existsById (Param.str (r.Vars "id")),
         Stmt.update u.Name u.Email (Param.str (r.Vars "id")),
         Stmt.selectCreatedAt (Param.str (r.Vars "id"))]⟩ := by
    simp only [o, updateUser, hid, hd, hn, he, hne, Db.existsById, hq0, hq1, hq2, hf, if_false,
      or_self, Db.update, Param.key, hrows, Db.selectCreatedAt, Db.find, hfind, hf2]
  refine ⟨?_, ?_, ?_, ?_, ?_, ?_, ?_⟩
  · rw [ko]; rfl
  · rw [ko]; rfl
  · rw [ko]
  · rw [ko]
    exact List.mem_map.mpr ⟨row0, hm, by simp [hi]⟩
  · intro row hrow hc
    rw [ko]
    exact List.mem_map.mpr ⟨row, hrow, by simp [hc]⟩
  · rw [ko]
  · rw [ko]

/-- After an insert a lookup by the assigned id finds the new row. -/
theorem find_new_row (db : Db) (name email : String) (hlt : ∀ row ∈ db.rows, row.id < db.nextId) :
    (db.rows ++ [(⟨db.nextId, name, email, db.now⟩ : Row)]).find?
      (fun row => decide (row.id = db.nextId)) = some ⟨db.nextId, name, email, db.now⟩ := by
  have hnone : db.rows.find? (fun row => decide (row.id = db.nextId)) = none := by
    rw [List.find?_eq_none]
    intro row hrow
    have := hlt row hrow
    simp only [decide_eq_true_eq]
    omega
  simp [List.find?_append, hnone]

/-- Positive integers lie above `minInt`. -/
theorem minInt_le_of_pos (i : Int) (hi : 0 < i) : minInt ≤ i := by
  have : minInt ≤ 0 := by decide
  omega

/-- An insert keeps the store well formed as long as the counter can grow. -/
theorem insert_WF (db db1 : Db) (name email : String) (id : Int) (hwf : db.WF)
    (hroom : db.nextId < maxInt)
    (hins : db.insert none name email = Except.ok (db1, id)) : db1.WF ∧ id = db.nextId := by
  simp only [Db.insert, Except.ok.injEq, Prod.mk.injEq] at hins
  obtain ⟨hdb, hid⟩ := hins
  subst hdb
  refine ⟨⟨?_, ?_, ?_, ?_⟩, hid.symm⟩
  · simp only [List.map_append, List.map_cons, List.map_nil]
    refine List.Nodup.append hwf.1 (List.nodup_singleton _) ?_
    intro x hx hx2
    obtain ⟨row, hrow, rfl⟩ := List.mem_map.mp hx
    have hlt := hwf.2.1 row hrow
    have : row.id = db.nextId := by simpa using hx2
    omega
  · intro row hrow
    rcases List.mem_append.mp hrow with hin | hin
    · have := hwf.2.1 row hin
      show row.id < db.nextId + 1
      omega
    · have : row = ⟨db.nextId, name, email, db.now⟩ := by simpa using hin
      subst this
      show db.nextId < db.nextId + 1
      omega
  · have := hwf.2.2.1
    show 0 < db.nextId + 1
    omega
  · show db.nextId + 1 ≤ maxInt
    omega

/-- An update keeps the store well formed. -/
theorem update_WF (db db1 : Db) (name email : String) (p : Param) (hwf : db.WF)
    (hup : db.update none name email p = Except.ok db1) : db1.WF := by
  simp only [Db.update, Except.ok.injEq] at hup
  subst hup
  have hids : (db.rows.map (fun r =>
      if p.key = some r.id then { r with name := name, email := email } else r)).map Row.id
      = db.rows.map Row.id := by
    rw [List.map_map]
    apply List.map_congr_left
    intro row _
    by_cases hc : p.key = some row.id <;> simp [hc]
  refine ⟨?_, ?_, hwf.2.2.1, hwf.2.2.2⟩
  · show (List.map Row.id (db.rows.map _)).Nodup
    rw [hids]
    exact hwf.1
  · intro row hrow
    obtain ⟨row1, hrow1, rfl⟩ := List.mem_map.mp hrow
    have := hwf.2.1 row1 hrow1
    by_cases hc : p.key = some row1.id <;> simpa [hc] using this

/-- A delete keeps the store well formed. -/
theorem delete_WF (db db1 : Db) (p : Param) (hwf : db.WF)
    (hdel : db.delete none p = Except.ok db1) : db1.WF := by
  simp only [Db.delete, Except.ok.injEq] at hdel
  subst hdel
  refine ⟨?_, ?_, hwf.2.2.1, hwf.2.2.2⟩
  · exact List.Nodup.sublist (List.Sublist.map Row.id (List.filter_sublist _)) hwf.1
  · intro row hrow
    exact hwf.2.1 row (List.mem_filter.mp hrow).1

/-- With a decoded payload that has a name and an email, on a store whose ids lie
below the counter and with no store failure, `createUser` inserts one row, reads its
timestamp back and answers 201 with the stored object. -/
theorem createUser_stores_row (parseTime : String → Option Time)
    (h : List (String × String)) (r : Request) (db : Db) (ft : Faults) (u : User)
    (hd : decodeUser parseTime r.body = some u) (hn : u.Name ≠ "") (he : u.Email ≠ "")
    (hlt : ∀ row ∈ db.rows, row.id < db.nextId)
    (hc0 : ft.call 0 = none) (hc1 : ft.call 1 = none) (hc2 : ft.call 2 = none) :
    createUser parseTime ⟨h, none, Body.empty⟩ r db ft =
      ⟨Encode (ResponseWriter.WriteHeader
        (ResponseWriter.Set ⟨h, none, Body.empty⟩ "Content-Type" "application/json") 201)
        (Body.user ⟨db.nextId, u.Name, u.Email, db.now⟩),
        { db with rows := db.rows ++ [⟨db.nextId, u.Name, u.Email, db.now⟩],
                  nextId := db.nextId + 1 },
        [Stmt.insert u.Name u.Email, Stmt.selectCreatedAt (Param.int db.nextId)]⟩ := by
  have hfind := find_new_row db u.Name u.Email hlt
  simp only [createUser, hd, hn, he, or_self, if_false, Db.insert, hc0, hc1, hc2,
    Db.selectCreatedAt, Db.find, Param.key, hfind]

/-- Claim C1 (create/get round trip): for every well-formed store and every create
payload with a non-empty name and a non-empty email, when the store operations
succeed, `createUser` answers 201 with the object `v` whose id and created_at the
store assigned, and `getUser` called afterwards on the resulting store with the
path id `Itoa v.ID` answers 200 with an object equal to `v` in all four fields. -/
theorem create_get_round_trip (parseTime : String → Option Time)
    (h h2 : List (String × String)) (r : Request) (db : Db) (ft ft2 : Faults) (u : User)
    (hd : decodeUser parseTime r.body = some u) (hn : u.Name ≠ "") (he : u.Email ≠ "")
    (hwf : db.WF)
    (hc0 : ft.call 0 = none) (hc1 : ft.call 1 = none) (hc2 : ft.call 2 = none)
    (hg0 : ft2.call 0 = none) :
    let c := createUser parseTime ⟨h, none, Body.empty⟩ r db ft
    let v : User := ⟨db.nextId, u.Name, u.Email, db.now⟩
    c.w.code = 201 ∧ c.w.body = Body.user v ∧
    ∀ r2 : Request, r2.Vars "id" = Itoa v.ID →
      (getUser ⟨h2, none, Body.empty⟩ r2 c.db ft2).w.code = 200 ∧
      (getUser ⟨h2, none, Body.empty⟩ r2 c.db ft2).w.body = Body.user v := by
  intro c v
  have hfind := find_new_row db u.Name u.Email hwf.2.1
  have kc : c = _ := createUser_stores_row parseTime h r db ft u hd hn he hwf.2.1 hc0 hc1 hc2
  refine ⟨?_, ?_, ?_⟩
  · rw [kc]; rfl
  · rw [kc]; rfl
  · intro r2 hr2
    have hA : Atoi (r2.Vars "id") = some db.nextId := by
      rw [hr2]
      exact Atoi_Itoa db.nextId (minInt_le_of_pos _ hwf.2.2.1) hwf.2.2.2
    have hne := Atoi_ne_empty _ _ hA
    have kg : getUser ⟨h2, none, Body.empty⟩ r2 c.db ft2 =
        ⟨Encode (ResponseWriter.Set ⟨h2, none, Body.empty⟩ "Content-Type" "application/json")
          (Body.user v), c.db, [Stmt.selectById (Param.str (r2.Vars "id"))]⟩ := by
      rw [kc]
      simp only [v, getUser, hA, hne, if_false, Db.selectById, hg0, Db.find, Param.key, hfind,
        scanRow]
    rw [kg]
    exact ⟨rfl, rfl⟩

/-- Claim C5, as amended (path-id validation of `getUser`), for every id text: an
empty id gives 400 "User ID is required"; the answer is 400 "Invalid user ID format"
if and only if the id is non-empty and is not an integer (optional sign, decimal
digits) within the range of Go's `int`; an id that is an integer in that range and
matches no row gives 404 "User not found" when the lookup succeeds; no 400 answer
issues a statement or changes the store. -/
theorem getUser_validates_id (h : List (String × String)) (r : Request) (db : Db) (ft : Faults) :
    let o := getUser ⟨h, none, Body.empty⟩ r db ft
    let id := r.Vars "id"
    (id = "" → o.w.code = 400 ∧ o.w.body = Body.text "User ID is required") ∧
    ((o.w.code = 400 ∧ o.w.body = Body.text "Invalid user ID format") ↔
      (id ≠ "" ∧ ¬ (isIntegerText id = true ∧ minInt ≤ integerValue id ∧
        integerValue id ≤ maxInt))) ∧
    (isIntegerText id = true → minInt ≤ integerValue id → integerValue id ≤ maxInt →
      (∀ row ∈ db.rows, row.id ≠ integerValue id) → ft.call 0 = none →
      o.w.code = 404 ∧ o.w.body = Body.text "User not found") ∧
    (o.w.code = 400 → o.log = [] ∧ o.db = db) := by
  intro o id
  by_cases hempty : r.Vars "id" = ""
  · have ko : o = ⟨Error (ResponseWriter.Set ⟨h, none, Body.empty⟩ "Content-Type"
          "application/json") "User ID is required" 400, db, []⟩ := by
      simp only [o, getUser, hempty, if_true]
    have hnot : isIntegerText id = false := by
      simp only [id, hempty]; decide
    refine ⟨fun _ => ?_, ?_, ?_, ?_⟩
    · rw [ko]; exact ⟨rfl, rfl⟩
    · rw [ko]
      constructor
      · intro hb
        exact absurd hb.2 (by
          simp [Error, Encode, ResponseWriter.code, ResponseWriter.Write,
            ResponseWriter.WriteHeader, ResponseWriter.Set])
      · intro hb
        exact absurd hempty hb.1
    · intro hint
      rw [hnot] at hint
      cases hint
    · intro _; rw [ko]; exact ⟨rfl, rfl⟩
  · cases hA : Atoi (r.Vars "id") with
    | none =>
      have ko : o = ⟨Error (ResponseWriter.Set ⟨h, none, Body.empty⟩ "Content-Type"
            "application/json") "Invalid user ID format" 400, db, []⟩ := by
        simp only [o, getUser, hempty, if_false, hA]
      have hspec : ¬ (isIntegerText id = true ∧ minInt ≤ integerValue id ∧
          integerValue id ≤ maxInt) := by
        intro hb
        have := (Atoi_eq_some_iff (r.Vars "id") (integerValue id)).mpr ⟨hb.1, rfl, hb.2.1, hb.2.2⟩
        rw [hA] at this
        cases this
      refine ⟨fun he => absurd he hempty, ?_, ?_, ?_⟩
      · rw [ko]
        exact ⟨fun _ => ⟨hempty, hspec⟩, fun _ => ⟨rfl, rfl⟩⟩
      · intro h1 h2 h3
        exact absurd ⟨h1, h2, h3⟩ hspec
      · intro _; rw [ko]; exact ⟨rfl, rfl⟩
    | some i =>
      have hspec := (Atoi_eq_some_iff (r.Vars "id") i).mp hA
      have hcode : o.w.code ≠ 400 := by
        simp only [o, getUser, hempty, if_false, hA, Db.selectById]
        cases ft.call 0 with
        | some e =>
          simp [Error, Encode, ResponseWriter.code, ResponseWriter.Write,
            ResponseWriter.WriteHeader, ResponseWriter.Set]
        | none =>
          cases db.find (Param.str (r.Vars "id")) with
          | none =>
            simp [Error, Encode, ResponseWriter.code, ResponseWriter.Write,
              ResponseWriter.WriteHeader, ResponseWriter.Set]
          | some row =>
            simp [Error, Encode, ResponseWriter.code, ResponseWriter.Write,
              ResponseWriter.WriteHeader, ResponseWriter.Set]
      refine ⟨fun he => absurd he hempty, ?_, ?_, ?_⟩
      · constructor
        · intro hb
          exact absurd hb.1 hcode
        · intro hb
          exact absurd ⟨hspec.1, hspec.2.1 ▸ hspec.2.2.1, hspec.2.1 ▸ hspec.2.2.2⟩ hb.2
      · intro _ _ _ habs hq
        have hf := find_eq_none_of_absent db _ i hA (fun row hrow => hspec.2.1 ▸ habs row hrow)
        have ko : o = ⟨Error (ResponseWriter.Set ⟨h, none, Body.empty⟩ "Content-Type"
              "application/json") "User not found" 404, db,
              [Stmt.selectById (Param.str (r.Vars "id"))]⟩ := by
          simp only [o, getUser, hempty, if_false, hA, Db.selectById, hq, hf, if_true]
        rw [ko]; exact ⟨rfl, rfl⟩
      · intro hc
        exact absurd hc hcode

/-- Claim C7, as amended (client-supplied id and timestamp are ignored by create):
for every store and every two create request bodies that both decode into a `User`
and carry the same non-empty name and the same non-empty email, whatever id and
created_at they decode to, `createUser` produces the same response writer, the same
store and the same statements under every store failure plan; when the store
operations succeed on a well-formed store the answer is 201 with the
store-assigned id and created_at. -/
theorem createUser_ignores_payload_id_and_time (parseTime : String → Option Time)
    (w : ResponseWriter) (h : List (String × String)) (r1 r2 : Request) (db : Db) (ft : Faults)
    (u1 u2 : User)
    (hd1 : decodeUser parseTime r1.body = some u1) (hd2 : decodeUser parseTime r2.body = some u2)
    (hname : u1.Name = u2.Name) (hemail : u1.Email = u2.Email)
    (hn : u1.Name ≠ "") (he : u1.Email ≠ "") :
    createUser parseTime w r1 db ft = createUser parseTime w r2 db ft ∧
    (db.WF →
      (createUser parseTime ⟨h, none, Body.empty⟩ r2 db Faults.none).w.code = 201 ∧
      (createUser parseTime ⟨h, none, Body.empty⟩ r2 db Faults.none).w.body
        = Body.user ⟨db.nextId, u1.Name, u1.Email, db.now⟩) := by
  refine ⟨?_, fun hwf => ?_⟩
  · simp only [createUser, hd1, hd2, hname, hemail]
  · have hn2 : u2.Name ≠ "" := hname ▸ hn
    have he2 : u2.Email ≠ "" := hemail ▸ he
    rw [createUser_stores_row parseTime h r2 db Faults.none u2 hd2 hn2 he2 hwf.2.1 rfl rfl rfl,
      hname, hemail]
    exact ⟨rfl, rfl⟩

/-- Claim C10 (CORS preflight), evaluated where it fails: an OPTIONS request to
`/users`, `/user` or `/user/1` matches no route of `main` (each route is limited to
one other method), so the router answers 405 itself, with no header and no body,
and never runs `corsMiddleware`; the store is unchanged and no statement is issued. -/
theorem main_OPTIONS_bypasses_corsMiddleware (parseTime : String → Option Time) (db : Db)
    (ft : Faults) (vars : List (String × String)) (body : Option Json) :
    main parseTime ⟨"OPTIONS", "/users", vars, body⟩ db ft
      = ⟨⟨[], some 405, Body.empty⟩, db, []⟩ ∧
    main parseTime ⟨"OPTIONS", "/user", vars, body⟩ db ft
      = ⟨⟨[], some 405, Body.empty⟩, db, []⟩ ∧
    main parseTime ⟨"OPTIONS", "/user/1", vars, body⟩ db ft
      = ⟨⟨[], some 405, Body.empty⟩, db, []⟩ := by
  refine ⟨?_, ?_, ?_⟩ <;> rfl

/-- What `corsMiddleware` does once it runs on an OPTIONS request: the three CORS
headers, status 200, no body, and the wrapped handler is not called. -/
theorem corsMiddleware_answers_OPTIONS (next : Handler) (h : List (String × String))
    (r : Request) (db : Db) (ft : Faults) (hm : r.method = "OPTIONS") :
    (corsMiddleware next ⟨h, none, Body.empty⟩ r db ft).w.code = 200 ∧
    (corsMiddleware next ⟨h, none, Body.empty⟩ r db ft).w.body = Body.empty ∧
    (corsMiddleware next ⟨h, none, Body.empty⟩ r db ft).w.Get "Access-Control-Allow-Origin"
      = some "*" ∧
    (corsMiddleware next ⟨h, none, Body.empty⟩ r db ft).db = db ∧
    (corsMiddleware next ⟨h, none, Body.empty⟩ r db ft).log = [] := by
  have key : corsMiddleware next ⟨h, none, Body.empty⟩ r db ft =
      ⟨(((ResponseWriter.mk h none Body.empty).Set "Access-Control-Allow-Origin" "*").Set
        "Access-Control-Allow-Methods" "GET, POST, PUT, DELETE, OPTIONS").Set
        "Access-Control-Allow-Headers" "Content-Type" |>.WriteHeader 200, db, []⟩ := by
    simp only [corsMiddleware, hm, if_true]
  rw [key]
  refine ⟨rfl, rfl, ?_, rfl, rfl⟩
  simp [ResponseWriter.Get, ResponseWriter.Set, ResponseWriter.WriteHeader, List.find?_append]

/-! ## Instances at concrete inputs -/

/-- Witness of C1: creating `sampleBody` on `sampleDb` answers 201, and fetching
id 3 afterwards returns the created object. -/
theorem create_get_round_trip_witness :
    decodeUser (fun _ => none) (some sampleBody) = some ⟨0, "cat", "cat@example.com", ⟨0⟩⟩ ∧
    sampleDb.WF ∧
    (createUser (fun _ => none) ⟨[], none, Body.empty⟩ ⟨"POST", "/user", [], some sampleBody⟩
      sampleDb Faults.none).w.code = 201 ∧
    (getUser ⟨[], none, Body.empty⟩ ⟨"GET", "/user/3", [("id", "3")], none⟩
      (createUser (fun _ => none) ⟨[], none, Body.empty⟩ ⟨"POST", "/user", [], some sampleBody⟩
        sampleDb Faults.none).db Faults.none).w.body
      = Body.user ⟨3, "cat", "cat@example.com", ⟨20⟩⟩ := by
  have t := create_get_round_trip (fun _ => none) [] [] ⟨"POST", "/user", [], some sampleBody⟩
    sampleDb Faults.none Faults.none ⟨0, "cat", "cat@example.com", ⟨0⟩⟩
    (by decide) (by decide) (by decide) (by decide) rfl rfl rfl rfl
  exact ⟨by decide, by decide, t.1,
    (t.2.2 ⟨"GET", "/user/3", [("id", "3")], none⟩ (by decide)).2⟩

/-- Witness of C2: a body without an email is answered 400 and leaves `sampleDb` as it was. -/
theorem createUser_rejects_missing_fields_witness :
    decodeUser (fun _ => none) (some (Json.obj [("name", Json.str "cat")]))
      = some ⟨0, "cat", "", ⟨0⟩⟩ ∧
    (createUser (fun _ => none) ⟨[], none, Body.empty⟩
      ⟨"POST", "/user", [], some (Json.obj [("name", Json.str "cat")])⟩
      sampleDb Faults.none).w.code = 400 ∧
    (createUser (fun _ => none) ⟨[], none, Body.empty⟩
      ⟨"POST", "/user", [], some (Json.obj [("name", Json.str "cat")])⟩
      sampleDb Faults.none).db = sampleDb := by
  have t := createUser_rejects_missing_fields (fun _ => none) []
    ⟨"POST", "/user", [], some (Json.obj [("name", Json.str "cat")])⟩ sampleDb Faults.none
    ⟨0, "cat", "", ⟨0⟩⟩ (by decide) (by decide)
  exact ⟨by decide, t.1, t.2.2.1⟩

/-- Witness of C3 as amended: updating row 2 of `sampleDb` with a body that also
carries the well-typed members `id` 41 and `created_at` answers 200 with id 2 and
the creation time row 2 had, and leaves row 1 alone. -/
theorem updateUser_preserves_identity_witness :
    Atoi "2" = some 2 ∧ sampleDb.WF ∧
    decodeUser (fun s => if s = "2024-01-02T03:04:05Z" then some ⟨7⟩ else none)
      (some (Json.obj [("name", Json.str "cat"), ("email", Json.str "cat@example.com"),
        ("id", Json.int 41), ("created_at", Json.str "2024-01-02T03:04:05Z")]))
      = some ⟨41, "cat", "cat@example.com", ⟨7⟩⟩ ∧
    (updateUser (fun s => if s = "2024-01-02T03:04:05Z" then some ⟨7⟩ else none)
      ⟨[], none, Body.empty⟩
      ⟨"PUT", "/user/2", [("id", "2")],
        some (Json.obj [("name", Json.str "cat"), ("email", Json.str "cat@example.com"),
          ("id", Json.int 41), ("created_at", Json.str "2024-01-02T03:04:05Z")])⟩
      sampleDb Faults.none).w.code = 200 ∧
    (updateUser (fun s => if s = "2024-01-02T03:04:05Z" then some ⟨7⟩ else none)
      ⟨[], none, Body.empty⟩
      ⟨"PUT", "/user/2", [("id", "2")],
        some (Json.obj [("name", Json.str "cat"), ("email", Json.str "cat@example.com"),
          ("id", Json.int 41), ("created_at", Json.str "2024-01-02T03:04:05Z")])⟩
      sampleDb Faults.none).w.body = Body.user ⟨2, "cat", "cat@example.com", ⟨11⟩⟩ ∧
    (updateUser (fun s => if s = "2024-01-02T03:04:05Z" then some ⟨7⟩ else none)
      ⟨[], none, Body.empty⟩
      ⟨"PUT", "/user/2", [("id", "2")],
        some (Json.obj [("name", Json.str "cat"), ("email", Json.str "cat@example.com"),
          ("id", Json.int 41), ("created_at", Json.str "2024-01-02T03:04:05Z")])⟩
      sampleDb Faults.none).db.rows
      = [⟨1, "ann", "ann@example.com", ⟨10⟩⟩, ⟨2, "cat", "cat@example.com", ⟨11⟩⟩] := by
  have t := updateUser_preserves_identity
    (fun s => if s = "2024-01-02T03:04:05Z" then some ⟨7⟩ else none) []
    ⟨"PUT", "/user/2", [("id", "2")],
      some (Json.obj [("name", Json.str "cat"), ("email", Json.str "cat@example.com"),
        ("id", Json.int 41), ("created_at", Json.str "2024-01-02T03:04:05Z")])⟩
    sampleDb Faults.none
    ⟨41, "cat", "cat@example.com", ⟨7⟩⟩ 2 ⟨2, "bob", "bob@example.com", ⟨11⟩⟩
    (by decide) (by decide) (by decide) (by decide) (by decide) (by decide) rfl rfl rfl rfl
  exact ⟨by decide, by decide, by decide, t.1, t.2.1, t.2.2.1⟩

/-- Witness of C4: deleting row 2 of `sampleDb` answers 204 and a second delete 404. -/
theorem deleteUser_removes_row_witness :
    Atoi "2" = some 2 ∧
    (deleteUser ⟨[], none, Body.empty⟩ ⟨"DELETE", "/user/2", [("id", "2")], none⟩
      sampleDb Faults.none).w.code = 204 ∧
    (deleteUser ⟨[], none, Body.empty⟩ ⟨"DELETE", "/user/2", [("id", "2")], none⟩
      (deleteUser ⟨[], none, Body.empty⟩ ⟨"DELETE", "/user/2", [("id", "2")], none⟩
        sampleDb Faults.none).db Faults.none).w.code = 404 := by
  have t := deleteUser_removes_row [] [] [] ⟨"DELETE", "/user/2", [("id", "2")], none⟩
    sampleDb Faults.none Faults.none Faults.none 2 ⟨2, "bob", "bob@example.com", ⟨11⟩⟩
    (by decide) (by decide) rfl rfl rfl rfl rfl
  exact ⟨by decide, t.1, t.2.2.2.2.2.2.2.2.1⟩

/-- Witness of C6: updating the absent id 999999 on `sampleDb` answers 404 and
leaves the store as it was. -/
theorem updateUser_absent_row_witness :
    Atoi "999999" = some 999999 ∧
    (updateUser (fun _ => none) ⟨[], none, Body.empty⟩
      ⟨"PUT", "/user/999999", [("id", "999999")], some sampleBody⟩ sampleDb Faults.none).w.code
      = 404 ∧
    (updateUser (fun _ => none) ⟨[], none, Body.empty⟩
      ⟨"PUT", "/user/999999", [("id", "999999")], some sampleBody⟩ sampleDb Faults.none).db
      = sampleDb := by
  have t := updateUser_absent_row (fun _ => none) []
    ⟨"PUT", "/user/999999", [("id", "999999")], some sampleBody⟩ sampleDb Faults.none
    ⟨0, "cat", "cat@example.com", ⟨0⟩⟩ 999999
    (by decide) (by decide) (by decide) (by decide) (by decide) rfl
  exact ⟨by decide, t.1, t.2.2.1⟩

/-- Witness of C7 as amended: a body with the members `id` and `created_at` set to
well-typed values gets the same outcome as the body without them. -/
theorem createUser_ignores_payload_id_and_time_witness :
    decodeUser (fun s => if s = "2024-01-02T03:04:05Z" then some ⟨7⟩ else none)
      (some (Json.obj [("name", Json.str "cat"), ("email", Json.str "cat@example.com"),
        ("id", Json.int 41), ("created_at", Json.str "2024-01-02T03:04:05Z")]))
      = some ⟨41, "cat", "cat@example.com", ⟨7⟩⟩ ∧
    createUser (fun s => if s = "2024-01-02T03:04:05Z" then some ⟨7⟩ else none)
      ResponseWriter.new ⟨"POST", "/user", [], some sampleBody⟩ sampleDb Faults.none
    = createUser (fun s => if s = "2024-01-02T03:04:05Z" then some ⟨7⟩ else none)
      ResponseWriter.new ⟨"POST", "/user", [],
        some (Json.obj [("name", Json.str "cat"), ("email", Json.str "cat@example.com"),
          ("id", Json.int 41), ("created_at", Json.str "2024-01-02T03:04:05Z")])⟩
      sampleDb Faults.none := by
  have t := createUser_ignores_payload_id_and_time
    (fun s => if s = "2024-01-02T03:04:05Z" then some ⟨7⟩ else none)
    ResponseWriter.new [] ⟨"POST", "/user", [], some sampleBody⟩
    ⟨"POST", "/user", [],
      some (Json.obj [("name", Json.str "cat"), ("email", Json.str "cat@example.com"),
        ("id", Json.int 41), ("created_at", Json.str "2024-01-02T03:04:05Z")])⟩
    sampleDb Faults.none ⟨0, "cat", "cat@example.com", ⟨0⟩⟩ ⟨41, "cat", "cat@example.com", ⟨7⟩⟩
    (by decide) (by decide) rfl rfl (by decide) (by decide)
  exact ⟨by decide, t.1⟩

/-- Witness of C9: listing `sampleDb` answers 200 with its two rows. -/
theorem getUsers_lists_every_row_witness :
    (getUsers ⟨[], none, Body.empty⟩ ⟨"GET", "/users", [], none⟩ sampleDb Faults.none).w.code
      = 200 ∧
    (getUsers ⟨[], none, Body.empty⟩ ⟨"GET", "/users", [], none⟩ sampleDb Faults.none).w.body
      = Body.users (some [⟨1, "ann", "ann@example.com", ⟨10⟩⟩,
          ⟨2, "bob", "bob@example.com", ⟨11⟩⟩]) := by
  have t := getUsers_lists_every_row [] ⟨"GET", "/users", [], none⟩ sampleDb Faults.none rfl rfl
  exact ⟨t.1, t.2.1⟩

/-- Counterexample to C5 as stated: the id `9223372036854775808` is an integer, yet
`getUser` answers 400 "Invalid user ID format" and never asks the store. -/
theorem getUser_rejects_integer_beyond_int :
    isIntegerText "9223372036854775808" = true ∧
    integerValue "9223372036854775808" = 9223372036854775808 ∧
    (getUser ResponseWriter.new
      ⟨"GET", "/user/9223372036854775808", [("id", "9223372036854775808")], none⟩
      sampleDb Faults.none).w.code = 400 ∧
    (getUser ResponseWriter.new
      ⟨"GET", "/user/9223372036854775808", [("id", "9223372036854775808")], none⟩
      sampleDb Faults.none).w.body = Body.text "Invalid user ID format" := by
  decide

/-- Counterexample to C7 as stated: two create bodies with the same name and email
that differ only in the presence of an `id` member, here the JSON string `"7"`, get
different statuses, 201 and 400, and leave different stores. -/
theorem createUser_rejects_textual_id :
    (createUser (fun _ => none) ResponseWriter.new ⟨"POST", "/user", [], some sampleBody⟩
      sampleDb Faults.none).w.code = 201 ∧
    (createUser (fun _ => none) ResponseWriter.new ⟨"POST", "/user", [],
      some (Json.obj [("name", Json.str "cat"), ("email", Json.str "cat@example.com"),
        ("id", Json.str "7")])⟩ sampleDb Faults.none).w.code = 400 ∧
    (createUser (fun _ => none) ResponseWriter.new ⟨"POST", "/user", [],
      some (Json.obj [("name", Json.str "cat"), ("email", Json.str "cat@example.com"),
        ("id", Json.str "7")])⟩ sampleDb Faults.none).w.body = Body.text "Invalid JSON format" ∧
    (createUser (fun _ => none) ResponseWriter.new ⟨"POST", "/user", [],
      some (Json.obj [("name", Json.str "cat"), ("email", Json.str "cat@example.com"),
        ("id", Json.str "7")])⟩ sampleDb Faults.none).db = sampleDb := by
  decide

/-- Counterexample to C3 as stated: `sampleDb` contains a row with id 2, the path id
is `2` and the body carries the non-empty name `cat` and email `cat@example.com`;
because the body also supplies an `id`, here the JSON string `"7"`, `updateUser`
answers 400 "Invalid JSON format" instead of 200, issues no statement and leaves
row 2 with its old name and email. -/
theorem updateUser_rejects_textual_id :
    (⟨2, "bob", "bob@example.com", ⟨11⟩⟩ : Row) ∈ sampleDb.rows ∧
    Atoi "2" = some 2 ∧
    (updateUser (fun _ => none) ResponseWriter.new ⟨"PUT", "/user/2", [("id", "2")],
      some (Json.obj [("name", Json.str "cat"), ("email", Json.str "cat@example.com"),
        ("id", Json.str "7")])⟩ sampleDb Faults.none).w.code = 400 ∧
    (updateUser (fun _ => none) ResponseWriter.new ⟨"PUT", "/user/2", [("id", "2")],
      some (Json.obj [("name", Json.str "cat"), ("email", Json.str "cat@example.com"),
        ("id", Json.str "7")])⟩ sampleDb Faults.none).w.body
      = Body.text "Invalid JSON format" ∧
    (updateUser (fun _ => none) ResponseWriter.new ⟨"PUT", "/user/2", [("id", "2")],
      some (Json.obj [("name", Json.str "cat"), ("email", Json.str "cat@example.com"),
        ("id", Json.str "7")])⟩ sampleDb Faults.none).log = [] ∧
    (updateUser (fun _ => none) ResponseWriter.new ⟨"PUT", "/user/2", [("id", "2")],
      some (Json.obj [("name", Json.str "cat"), ("email", Json.str "cat@example.com"),
        ("id", Json.str "7")])⟩ sampleDb Faults.none).db = sampleDb := by
  decide

end GoCrud
